import Mathlib

/-!
# Git_Commit_Gen: a verification development of `main.go`

Go strings are modelled as Lean `String`s, that is, as the sequence of
runes a Go `range` loop sees (a byte that is not valid UTF-8 shows up
as U+FFFD, which is neither white space, nor a quote, nor a letter).
A Go result pair `(string, error)` is a Lean pair `String × Option String`,
the error being represented by its message (`none` is `nil`).

Everything the program does to the outside (environment, `git`
subprocesses, the HTTP call, standard input) is read from a `World`; the
functions return, next to their Go result, the list of effects they
performed, in order.  The parts of the Go standard library the program
calls but cannot be translated from this repository (`encoding/json`, the
Unicode case table) are the fields of a `Lib`.
-/

namespace GitCommitGen

/-! ## Standard-library string functions -/

/-- Go `unicode.IsSpace`: the Latin-1 set `\t \n \v \f \r`, space, U+0085, U+00A0,
and above Latin-1 the Unicode `White_Space` property. -/
def IsSpace (r : Char) : Bool :=
  let n := r.toNat
  (0x09 ≤ n && n ≤ 0x0D) || n == 0x20 || n == 0x85 || n == 0xA0 || n == 0x1680 ||
    (0x2000 ≤ n && n ≤ 0x200A) || n == 0x2028 || n == 0x2029 || n == 0x202F ||
    n == 0x205F || n == 0x3000

/-- Go `strings.TrimLeftFunc` on runes: drop runes from the front while `f` holds. -/
def trimLeftFunc (f : Char → Bool) : List Char → List Char
  | [] => []
  | c :: cs => if f c then trimLeftFunc f cs else c :: cs

/-- Go `strings.TrimRightFunc` on runes: drop runes from the back while `f` holds. -/
def trimRightFunc (f : Char → Bool) : List Char → List Char
  | [] => []
  | c :: cs =>
    match trimRightFunc f cs with
    | [] => if f c then [] else [c]
    | r :: rs => c :: r :: rs

/-- Go `strings.TrimSpace`: all leading and trailing white space removed. -/
def TrimSpace (s : String) : String :=
  ⟨trimRightFunc IsSpace (trimLeftFunc IsSpace s.data)⟩

/-- Go `strings.Trim(s, cutset)`: all leading and trailing runes contained in `cutset`
removed (the right end is trimmed first, then the left end, as in the Go source). -/
def Trim (s cutset : String) : String :=
  if s = "" ∨ cutset = "" then s
  else
    ⟨trimLeftFunc (fun c => cutset.data.contains c)
      (trimRightFunc (fun c => cutset.data.contains c) s.data)⟩

/-- Go `unicode.ToLower`: ASCII is mapped directly, every other rune through the case table
`tbl` (`unicode.CaseRanges`, data of the Go distribution). -/
def unicodeToLower (tbl : Char → Char) (r : Char) : Char :=
  if r.toNat ≤ 0x7F then
    if 0x41 ≤ r.toNat ∧ r.toNat ≤ 0x5A then Char.ofNat (r.toNat + 0x20) else r
  else tbl r

/-- Go `strings.ToLower`: every rune mapped to its lower case. -/
def ToLower (tbl : Char → Char) (s : String) : String :=
  ⟨s.data.map (unicodeToLower tbl)⟩

/-- Go `bufio.Reader.ReadString(delim)` on the remaining input, the error dropped as the
caller does: the data up to and including the first `delim`, or all of it when there is
none. -/
def readString (delim : Char) : List Char → List Char
  | [] => []
  | c :: cs => if c = delim then [c] else c :: readString delim cs

/-- Go `fmt` verb `%d` for a non-negative `int`: the decimal digits. -/
def Itoa (n : Nat) : String := Nat.repr n

/-! ## Data model (`main.go`, lines 16-32) -/

/-- One element of `GeminiRequest.Contents[i].Parts`, and of
`GeminiResponse.Candidates[i].Content.Parts`: `struct { Text string }`. -/
structure Part where
  Text : String
  deriving DecidableEq, Repr

/-- One element of `GeminiRequest.Contents`: `struct { Parts []struct{...} }`. -/
structure Content where
  Parts : List Part
  deriving DecidableEq, Repr

/-- Go `type GeminiRequest struct { Contents []struct { Parts []struct { Text string } } }`. -/
structure GeminiRequest where
  Contents : List Content
  deriving DecidableEq, Repr

/-- One element of `GeminiResponse.Candidates`: `struct { Content struct { Parts ... } }`. -/
structure Candidate where
  Content : Content
  deriving DecidableEq, Repr

/-- Go `type GeminiResponse struct { Candidates []struct { Content struct { Parts []struct
{ Text string } } } }`.  A `nil` slice and an empty slice are both the empty list. -/
structure GeminiResponse where
  Candidates : List Candidate
  deriving DecidableEq, Repr

/-! ## The outside world -/

/-- Outcome of running a subprocess to completion (`exec.Cmd.Run`, `Output`,
`CombinedOutput`): the captured standard output, the captured standard output and standard
error together, and the error (`none` when the command ran and exited with status 0). -/
structure CmdResult where
  Stdout : String
  Combined : String
  Err : Option String

/-- An HTTP response as the program sees it: the status code (`net/http` only yields
non-negative ones), the bytes `io.ReadAll` gets out of the body, and the error `io.ReadAll`
returns with them. -/
structure HttpResponse where
  StatusCode : Nat
  Body : String
  ReadErr : Option String

/-- Functions of the Go distribution used by the program whose behaviour is not in this
repository: `json.Marshal` on a `GeminiRequest`, `json.Unmarshal` into a zero
`GeminiResponse`, and the case table behind `unicode.ToLower`. -/
structure Lib where
  Marshal : GeminiRequest → String × Option String
  Unmarshal : String → GeminiResponse × Option String
  CaseTable : Char → Char

/-- What the process finds around it: the environment variables, what each subprocess
command line does, what `http.Post` answers (an error, or a response), and the content of
standard input. -/
structure World where
  Env : String → Option String
  Exec : List String → CmdResult
  Post : String → String → String → Except String HttpResponse
  Stdin : String

/-- An effect of the program on the outside. -/
inductive Event where
  | stdout (text : String)
  | exec (argv : List String)
  | httpPost (url contentType body : String)
  | readStdin
  deriving DecidableEq, Repr

/-- How the process ends: `main` returns, or `log.Fatal` prints the message and exits with
status 1. -/
inductive Exit where
  | ok
  | fatal (msg : String)
  deriving DecidableEq, Repr

/-- Go `os.Getenv`: the value, or the empty string when the variable is not set. -/
def Getenv (w : World) (key : String) : String := (w.Env key).getD ""

/-! ## The program (`main.go`, lines 34-183) -/

/-- Go `isGitRepo` (lines 87-90). -/
def isGitRepo (w : World) : Bool × List Event :=
  let argv := ["git", "rev-parse", "--git-dir"]
  ((w.Exec argv).Err.isNone, [Event.exec argv])

/-- Go `getStagedChanges` (lines 92-105). -/
def getStagedChanges (w : World) : (String × Option String) × List Event :=
  let argv := ["git", "diff", "--cached"]
  let r := w.Exec argv
  match r.Err with
  | some err => (("", some ("failed to get staged changes: " ++ err)), [Event.exec argv])
  | none =>
    let diff := r.Stdout
    if TrimSpace diff = "" then
      (("", some "no staged changes found - run 'git add .' first"), [Event.exec argv])
    else ((diff, none), [Event.exec argv])

/-- The prompt template of lines 108-118 before the `%s` verb. -/
def promptIntro : String := "Generate a short git commit message for these changes:\n\n"

/-- The prompt template of lines 108-118 after the `%s` verb. -/
def promptRules : String :=
  "\n\nRules:\n- Use format: type: description\n- Types: feat, fix, docs, style, refactor, test, chore\n- Keep under 50 characters\n- Be specific\n\nJust return the commit message, nothing else:"

/-- The `prompt` of lines 108-118: `fmt.Sprintf` of the template with the diff for `%s`. -/
def prompt (diff : String) : String := promptIntro ++ diff ++ promptRules

/-- The `reqBody` of lines 120-134. -/
def reqBody (diff : String) : GeminiRequest :=
  { Contents := [{ Parts := [{ Text := prompt diff }] }] }

/-- The URL format of line 141 before the `%s` verb. -/
def apiURL : String :=
  "https://generativelanguage.googleapis.com/v1beta/models/gemini-1.5-flash-latest:generateContent?key="

/-- Go `generateCommitMessage` (lines 107-172). -/
def generateCommitMessage (lib : Lib) (w : World) (diff apiKey : String) :
    (String × Option String) × List Event :=
  match lib.Marshal (reqBody diff) with
  | (_, some err) => (("", some err), [])
  | (jsonData, none) =>
    let url := apiURL ++ apiKey
    let sent := [Event.httpPost url "application/json" jsonData]
    match w.Post url "application/json" jsonData with
    | .error err => (("", some ("API call failed: " ++ err)), sent)
    | .ok resp =>
      if resp.StatusCode ≠ 200 then
        (("", some ("Gemini API error (status " ++ Itoa resp.StatusCode ++ "): " ++ resp.Body)),
          sent)
      else
        match resp.ReadErr with
        | some err => (("", some err), sent)
        | none =>
          match lib.Unmarshal resp.Body with
          | (_, some err) => (("", some err), sent)
          | (geminiResp, none) =>
            match geminiResp.Candidates with
            | [] => (("", some "no response from Gemini"), sent)
            | c :: _ =>
              match c.Content.Parts with
              | [] => (("", some "no response from Gemini"), sent)
              | p :: _ =>
                let message := TrimSpace p.Text
                let message := Trim message "\"'"
                ((message, none), sent)

/-- Go `commitChanges` (lines 174-183). -/
def commitChanges (w : World) (message : String) : Option String × List Event :=
  let argv := ["git", "commit", "-m", message]
  let r := w.Exec argv
  match r.Err with
  | some err =>
    (some ("git commit failed: " ++ err ++ "\nOutput: " ++ r.Combined), [Event.exec argv])
  | none => (none, [Event.exec argv, Event.stdout ("Git output: " ++ r.Combined)])

/-- Go `main` (lines 34-85): the exit of the process and the effects it performed.
`len(diff)` is the length in bytes of the UTF-8 encoding. -/
def main (lib : Lib) (w : World) : Exit × List Event :=
  let t := [Event.stdout "🚀 Gemini Git Commit Generator\n"]
  let apiKey := Getenv w "GEMINI_API_KEY"
  if apiKey = "" then (Exit.fatal "❌ GEMINI_API_KEY environment variable is required", t)
  else
    let t := t ++ [Event.stdout "✅ API key found\n"]
    let repo := isGitRepo w
    let t := t ++ repo.2
    if repo.1 = false then (Exit.fatal "❌ Not in a git repository", t)
    else
      let t := t ++ [Event.stdout "✅ Git repository detected\n",
        Event.stdout "📝 Getting staged changes...\n"]
      let staged := getStagedChanges w
      let t := t ++ staged.2
      match staged.1 with
      | (_, some err) => (Exit.fatal ("❌ " ++ err), t)
      | (diff, none) =>
        let t := t ++ [Event.stdout ("✅ Found " ++ Itoa diff.utf8ByteSize ++
            " characters of staged changes\n"),
          Event.stdout "🤖 Generating commit message with Gemini...\n"]
        let gen := generateCommitMessage lib w diff apiKey
        let t := t ++ gen.2
        match gen.1 with
        | (_, some err) => (Exit.fatal ("❌ " ++ err), t)
        | (message, none) =>
          let t := t ++ [Event.stdout ("\n💡 Generated commit message:\n" ++ message ++ "\n\n"),
            Event.stdout "✨ Do you want to commit with this message? (y/n): ",
            Event.readStdin]
          let input : String := ⟨readString '\n' w.Stdin.data⟩
          let input := TrimSpace (ToLower lib.CaseTable input)
          if input = "y" ∨ input = "yes" then
            let done := commitChanges w message
            let t := t ++ done.2
            match done.1 with
            | some err => (Exit.fatal ("❌ " ++ err), t)
            | none => (Exit.ok, t ++ [Event.stdout "🎉 Successfully committed!\n"])
          else (Exit.ok, t ++ [Event.stdout "❌ Commit cancelled\n"])


/-! ## Specification-side definitions -/

/-- A single quote or a double quote. -/
def isQuote (c : Char) : Bool := c == '"' || c == '\''

/-- Removing every leading and every trailing rune that satisfies `p`. -/
def stripEnds (p : Char → Bool) (l : List Char) : List Char :=
  (l.dropWhile p).rdropWhile p

/-- The sanitisation in the words of the specification: first all leading and trailing
white space is removed, then every leading and trailing quote character. -/
def sanitized (text : String) : String :=
  ⟨stripEnds isQuote (stripEnds IsSpace text.data)⟩

/-- The request for `diff` is serialised and posted, and the API answers it with `resp`. -/
def Answered (lib : Lib) (w : World) (diff apiKey : String) (resp : HttpResponse) : Prop :=
  ∃ jsonData, lib.Marshal (reqBody diff) = (jsonData, none) ∧
    w.Post (apiURL ++ apiKey) "application/json" jsonData = Except.ok resp

/-- Removing at most one rune from the front, when it satisfies `p`. -/
def dropOne (p : Char → Bool) : List Char → List Char
  | [] => []
  | c :: cs => if p c then cs else c :: cs

/-- A single layer of quotes removed: at most one leading and at most one trailing quote
character. -/
def stripOneLayer (l : List Char) : List Char :=
  (dropOne isQuote (dropOne isQuote l).reverse).reverse

/-- The sanitisation with a single layer of quotes removed after the white space. -/
def sanitizedOneLayer (text : String) : String :=
  ⟨stripOneLayer (stripEnds IsSpace text.data)⟩

/-- The string is not empty and its first rune satisfies `p`. -/
def beginsWith (p : Char → Bool) (s : String) : Prop :=
  ∃ c, s.data.head? = some c ∧ p c = true

/-- The string is not empty and its last rune satisfies `p`. -/
def endsWith (p : Char → Bool) (s : String) : Prop :=
  ∃ c, s.data.getLast? = some c ∧ p c = true

/-- The effect is the start of a `git commit` subprocess. -/
def isCommit : Event → Bool
  | Event.exec ("git" :: "commit" :: _) => true
  | _ => false

/-- The effect is a subprocess, an HTTP request or a read of standard input (anything but
printing). -/
def isExternal : Event → Bool
  | Event.stdout _ => false
  | _ => true

/-- The run gets as far as the confirmation prompt, with `message` generated: the credential
is set, the repository probe succeeds, the staged diff is collected and the generator
succeeds on it. -/
def ReachesPrompt (lib : Lib) (w : World) (message : String) : Prop :=
  ∃ key diff, w.Env "GEMINI_API_KEY" = some key ∧ key ≠ "" ∧
    (w.Exec ["git", "rev-parse", "--git-dir"]).Err = none ∧
    (getStagedChanges w).1 = (diff, none) ∧
    (generateCommitMessage lib w diff key).1 = (message, none)

/-- The line read at the confirmation prompt. -/
def promptLine (w : World) : String := ⟨readString '\n' w.Stdin.data⟩

/-- The normalisation of the answer in the words of the specification: surrounding white
space trimmed, then lower-cased. -/
def normalized (tbl : Char → Char) (line : String) : String :=
  ToLower tbl (TrimSpace line)

/-- The answers that confirm the commit. -/
def affirmative (answer : String) : Prop := answer = "y" ∨ answer = "yes"

instance (answer : String) : Decidable (affirmative answer) := by
  unfold affirmative; infer_instance

/-- The effects of a run up to and including the read at the confirmation prompt, for the
credential `key`, the staged diff `diff` and the generated `message`. -/
def promptTrace (lib : Lib) (w : World) (key diff message : String) : List Event :=
  [Event.stdout "🚀 Gemini Git Commit Generator\n", Event.stdout "✅ API key found\n",
    Event.exec ["git", "rev-parse", "--git-dir"],
    Event.stdout "✅ Git repository detected\n", Event.stdout "📝 Getting staged changes...\n",
    Event.exec ["git", "diff", "--cached"],
    Event.stdout ("✅ Found " ++ Itoa diff.utf8ByteSize ++ " characters of staged changes\n"),
    Event.stdout "🤖 Generating commit message with Gemini...\n"] ++
  (generateCommitMessage lib w diff key).2 ++
  [Event.stdout ("\n💡 Generated commit message:\n" ++ message ++ "\n\n"),
    Event.stdout "✨ Do you want to commit with this message? (y/n): ", Event.readStdin]

/-! ## A reference instance of `Lib` -/

/-- A JSON text as a tree. -/
inductive JValue where
  | null
  | bool (b : Bool)
  | number (lit : List Char)
  | string (s : List Char)
  | array (items : List JValue)
  | object (members : List (List Char × JValue))

/-- JSON insignificant white space: space, tab, line feed, carriage return. -/
def skipSpace : List Char → List Char
  | [] => []
  | c :: cs => if c = ' ' ∨ c = '\t' ∨ c = '\n' ∨ c = '\r' then skipSpace cs else c :: cs

/-- Value of a hexadecimal digit. -/
def hexVal (c : Char) : Option Nat :=
  let n := c.toNat
  if 0x30 ≤ n ∧ n ≤ 0x39 then some (n - 0x30)
  else if 0x61 ≤ n ∧ n ≤ 0x66 then some (n - 0x61 + 10)
  else if 0x41 ≤ n ∧ n ≤ 0x46 then some (n - 0x41 + 10)
  else none

/-- The four hexadecimal digits of a `\u` escape. -/
def hex4 : List Char → Option (Nat × List Char)
  | a :: b :: c :: d :: rest =>
    match hexVal a, hexVal b, hexVal c, hexVal d with
    | some x, some y, some z, some t => some (((x * 16 + y) * 16 + z) * 16 + t, rest)
    | _, _, _, _ => none
  | _ => none

/-- The rest of a JSON string after its opening quote: the runes it denotes and the input
after the closing quote.  A `\u` escape that is half of a surrogate pair without its other
half denotes U+FFFD. -/
def parseString : Nat → List Char → Option (List Char × List Char)
  | 0, _ => none
  | _ + 1, [] => none
  | fuel + 1, c :: cs =>
    if c = '"' then some ([], cs)
    else if c.toNat < 0x20 then none
    else if c = '\\' then
      match cs with
      | [] => none
      | e :: rest =>
        let lit (r : Char) := (parseString fuel rest).map fun (s, out) => (r :: s, out)
        if e = '"' then lit '"' else if e = '\\' then lit '\\' else if e = '/' then lit '/'
        else if e = 'b' then lit (Char.ofNat 8) else if e = 'f' then lit (Char.ofNat 12)
        else if e = 'n' then lit '\n' else if e = 'r' then lit '\r' else if e = 't' then lit '\t'
        else if e = 'u' then
          match hex4 rest with
          | none => none
          | some (hi, rest1) =>
            if 0xD800 ≤ hi ∧ hi < 0xDC00 then
              match rest1 with
              | '\\' :: 'u' :: rest2 =>
                match hex4 rest2 with
                | none => none
                | some (lo, rest3) =>
                  if 0xDC00 ≤ lo ∧ lo < 0xE000 then
                    (parseString fuel rest3).map fun (s, out) =>
                      (Char.ofNat (0x10000 + (hi - 0xD800) * 0x400 + (lo - 0xDC00)) :: s, out)
                  else (parseString fuel rest1).map fun (s, out) => (Char.ofNat 0xFFFD :: s, out)
              | _ => (parseString fuel rest1).map fun (s, out) => (Char.ofNat 0xFFFD :: s, out)
            else if 0xDC00 ≤ hi ∧ hi < 0xE000 then
              (parseString fuel rest1).map fun (s, out) => (Char.ofNat 0xFFFD :: s, out)
            else (parseString fuel rest1).map fun (s, out) => (Char.ofNat hi :: s, out)
        else none
    else (parseString fuel cs).map fun (s, out) => (c :: s, out)

/-- The leading decimal digits of the input and what follows them. -/
def digits : List Char → List Char × List Char
  | [] => ([], [])
  | c :: cs =>
    if 0x30 ≤ c.toNat ∧ c.toNat ≤ 0x39 then ((digits cs).1.cons c, (digits cs).2) else ([], c :: cs)

/-- A JSON number: its literal and the input after it. -/
def parseNumber (cs : List Char) : Option (List Char × List Char) :=
  let (sign, cs) := match cs with
    | '-' :: rest => (['-'], rest)
    | _ => ([], cs)
  let (int, cs) := digits cs
  if int = [] ∨ (int.head? = some '0' ∧ int.length ≠ 1) then none
  else
    let frac : Option (List Char × List Char) := match cs with
      | '.' :: rest =>
        let (d, rest1) := digits rest
        if d = [] then none else some ('.' :: d, rest1)
      | _ => some ([], cs)
    match frac with
    | none => none
    | some (fr, cs) =>
      let exp (e : Char) (rest : List Char) : Option (List Char × List Char) :=
        let (sg, rest1) := match rest with
          | '+' :: r => (['+'], r)
          | '-' :: r => (['-'], r)
          | _ => ([], rest)
        let (d, rest2) := digits rest1
        if d = [] then none else some (sign ++ int ++ fr ++ e :: sg ++ d, rest2)
      match cs with
      | 'e' :: rest => exp 'e' rest
      | 'E' :: rest => exp 'E' rest
      | _ => some (sign ++ int ++ fr, cs)

mutual
/-- A JSON value at the head of the input (after white space) and the input after it. -/
def parseValue : Nat → List Char → Option (JValue × List Char)
  | 0, _ => none
  | fuel + 1, cs =>
    match skipSpace cs with
    | 'n' :: 'u' :: 'l' :: 'l' :: rest => some (JValue.null, rest)
    | 't' :: 'r' :: 'u' :: 'e' :: rest => some (JValue.bool true, rest)
    | 'f' :: 'a' :: 'l' :: 's' :: 'e' :: rest => some (JValue.bool false, rest)
    | '"' :: rest => (parseString (rest.length + 1) rest).map fun (s, out) => (JValue.string s, out)
    | '[' :: rest =>
      match skipSpace rest with
      | ']' :: out => some (JValue.array [], out)
      | _ => (parseItems fuel rest).map fun (items, out) => (JValue.array items, out)
    | '{' :: rest =>
      match skipSpace rest with
      | '}' :: out => some (JValue.object [], out)
      | _ => (parseMembers fuel rest).map fun (ms, out) => (JValue.object ms, out)
    | rest => (parseNumber rest).map fun (lit, out) => (JValue.number lit, out)
/-- The elements of a non-empty array after its `[`, up to and including the `]`. -/
def parseItems : Nat → List Char → Option (List JValue × List Char)
  | 0, _ => none
  | fuel + 1, cs =>
    match parseValue fuel cs with
    | none => none
    | some (v, rest) =>
      match skipSpace rest with
      | ']' :: out => some ([v], out)
      | ',' :: rest1 => (parseItems fuel rest1).map fun (vs, out) => (v :: vs, out)
      | _ => none
/-- The members of a non-empty object after its `{`, up to and including the `}`. -/
def parseMembers : Nat → List Char → Option (List (List Char × JValue) × List Char)
  | 0, _ => none
  | fuel + 1, cs =>
    match skipSpace cs with
    | '"' :: rest =>
      match parseString (rest.length + 1) rest with
      | none => none
      | some (key, rest1) =>
        match skipSpace rest1 with
        | ':' :: rest2 =>
          match parseValue fuel rest2 with
          | none => none
          | some (v, rest3) =>
            match skipSpace rest3 with
            | '}' :: out => some ([(key, v)], out)
            | ',' :: rest4 => (parseMembers fuel rest4).map fun (ms, out) => ((key, v) :: ms, out)
            | _ => none
        | _ => none
    | _ => none
end

/-- A complete JSON text: one value with nothing but white space around it. -/
def parseJSON (cs : List Char) : Option JValue :=
  match parseValue (2 * cs.length + 2) cs with
  | some (v, rest) => if skipSpace rest = [] then some v else none
  | none => none


/-- Simple case folding of the runes that fold to an ASCII letter: the ASCII letters
themselves, U+017F (long s) and U+212A (Kelvin sign). -/
def foldRune (c : Char) : Char :=
  if 0x41 ≤ c.toNat ∧ c.toNat ≤ 0x5A then Char.ofNat (c.toNat + 0x20)
  else if c.toNat = 0x17F then 's'
  else if c.toNat = 0x212A then 'k'
  else c

/-- An object key names the field tagged `name`: an exact match, or a match under case
folding. -/
def keyMatches (name : String) (key : List Char) : Bool :=
  key.map foldRune == name.data.map foldRune

/-- The name of a JSON value's kind in a type error. -/
def JValue.kind : JValue → String
  | JValue.null => "null"
  | JValue.bool _ => "bool"
  | JValue.number _ => "number"
  | JValue.string _ => "string"
  | JValue.array _ => "array"
  | JValue.object _ => "object"

/-- The `json.UnmarshalTypeError` for a value of the wrong kind. -/
def typeError (v : JValue) (goType : String) : String :=
  "json: cannot unmarshal " ++ v.kind ++ " into Go value of type " ++ goType

/-- A JSON value into a Go `string` holding `old`. -/
def decodeString (old : String) : JValue → Except String String
  | JValue.string s => Except.ok ⟨s⟩
  | JValue.null => Except.ok old
  | v => Except.error (typeError v "string")

/-- The members of an object into a struct whose only field is tagged `name`, decoded by
`field`; members with another key are skipped. -/
def decodeMembers {α : Type} (name : String) (field : α → JValue → Except String α) :
    α → List (List Char × JValue) → Except String α
  | old, [] => Except.ok old
  | old, (key, v) :: ms =>
    if keyMatches name key then
      match field old v with
      | Except.ok new => decodeMembers name field new ms
      | Except.error e => Except.error e
    else decodeMembers name field old ms

/-- A JSON value into a struct holding `old` whose only field is tagged `name`. -/
def decodeStruct {α : Type} (name : String) (field : α → JValue → Except String α)
    (old : α) : JValue → Except String α
  | JValue.object ms => decodeMembers name field old ms
  | JValue.null => Except.ok old
  | v => Except.error (typeError v "struct")

/-- The elements of an array, each into a fresh element. -/
def decodeItems {α : Type} (item : JValue → Except String α) :
    List JValue → Except String (List α)
  | [] => Except.ok []
  | v :: vs =>
    match item v, decodeItems item vs with
    | Except.ok x, Except.ok xs => Except.ok (x :: xs)
    | Except.error e, _ => Except.error e
    | _, Except.error e => Except.error e

/-- A JSON value into a slice: an array replaces the slice, `null` makes it `nil`. -/
def decodeSlice {α : Type} (item : JValue → Except String α) :
    JValue → Except String (List α)
  | JValue.array vs => decodeItems item vs
  | JValue.null => Except.ok []
  | v => Except.error (typeError v "slice")

/-- A JSON value into a fresh `struct { Text string }`. -/
def decodePart : JValue → Except String Part :=
  decodeStruct "text" (fun (p : Part) v => (decodeString p.Text v).map Part.mk) ⟨""⟩

/-- A JSON value into the `Content` struct holding `old`. -/
def decodeContent (old : Content) : JValue → Except String Content :=
  decodeStruct "parts" (fun (_ : Content) v => (decodeSlice decodePart v).map Content.mk) old

/-- A JSON value into a fresh element of `Candidates`. -/
def decodeCandidate : JValue → Except String Candidate :=
  decodeStruct "content" (fun (c : Candidate) v => (decodeContent c.Content v).map Candidate.mk)
    ⟨⟨[]⟩⟩

/-- A JSON value into a zero `GeminiResponse`. -/
def decodeResponse : JValue → Except String GeminiResponse :=
  decodeStruct "candidates"
    (fun (_ : GeminiResponse) v => (decodeSlice decodeCandidate v).map GeminiResponse.mk) ⟨[]⟩

/-- A JSON decoder for `json.Unmarshal(body, &geminiResp)`, written after the documentation
of `encoding/json`: keys match a field tag exactly or up to case, other keys are skipped,
`null` leaves a field as it is, a value of the wrong kind is an error. -/
def refUnmarshal (body : String) : GeminiResponse × Option String :=
  match parseJSON body.data with
  | none => (⟨[]⟩, some "invalid JSON input")
  | some v =>
    match decodeResponse v with
    | Except.ok g => (g, none)
    | Except.error e => (⟨[]⟩, some e)

/-- A lower-case hexadecimal digit. -/
def hexDigit (n : Nat) : Char :=
  if n < 10 then Char.ofNat (0x30 + n) else Char.ofNat (0x61 + (n - 10))

/-- One rune inside a JSON string as `json.Marshal` writes it (HTML-safe escaping). -/
def escapeRune (c : Char) : List Char :=
  if c = '"' then ['\\', '"']
  else if c = '\\' then ['\\', '\\']
  else if c = '\n' then ['\\', 'n']
  else if c = '\r' then ['\\', 'r']
  else if c = '\t' then ['\\', 't']
  else if c.toNat < 0x20 ∨ c = '<' ∨ c = '>' ∨ c = '&' then
    ['\\', 'u', '0', '0', hexDigit (c.toNat / 16), hexDigit (c.toNat % 16)]
  else if c.toNat = 0x2028 then ['\\', 'u', '2', '0', '2', '8']
  else if c.toNat = 0x2029 then ['\\', 'u', '2', '0', '2', '9']
  else [c]

/-- A Go string as a JSON string. -/
def encodeString (s : String) : List Char :=
  '"' :: (s.data.map escapeRune).flatten ++ ['"']

/-- A slice as a JSON array. -/
def encodeSlice {α : Type} (item : α → List Char) (l : List α) : List Char :=
  '[' :: (List.intersperse [','] (l.map item)).flatten ++ [']']

/-- A JSON encoder for `json.Marshal(reqBody)`; it never fails. -/
def refMarshal (r : GeminiRequest) : String × Option String :=
  let part (p : Part) : List Char := "\x7b\"text\":".data ++ encodeString p.Text ++ ['\x7d']
  let content (c : Content) : List Char :=
    "\x7b\"parts\":".data ++ encodeSlice part c.Parts ++ ['\x7d']
  (⟨"\x7b\"contents\":".data ++ encodeSlice content r.Contents ++ ['\x7d']⟩, none)

/-- A fragment of the case table: the Latin-1 capital letters and the Kelvin sign. -/
def refCaseTable (c : Char) : Char :=
  if (0xC0 ≤ c.toNat ∧ c.toNat ≤ 0xD6) ∨ (0xD8 ≤ c.toNat ∧ c.toNat ≤ 0xDE) then
    Char.ofNat (c.toNat + 0x20)
  else if c.toNat = 0x212A then 'k'
  else c

/-- The reference library: the JSON encoder and decoder above and the case-table
fragment. -/
def refLib : Lib := { Marshal := refMarshal, Unmarshal := refUnmarshal, CaseTable := refCaseTable }

/-! ## Scenarios -/

/-- A world for scenarios: the credential is `secret`, every subprocess succeeds,
`git diff --cached` prints `diffOut`, the API answers every request with `status` and
`body`, and standard input holds `stdin`. -/
def scenario (diffOut : String) (status : Nat) (body stdin : String) : World :=
  { Env := fun k => if k = "GEMINI_API_KEY" then some "secret" else none
    Exec := fun argv =>
      if argv = ["git", "diff", "--cached"] then ⟨diffOut, diffOut, none⟩ else ⟨"", "", none⟩
    Post := fun _ _ _ => Except.ok ⟨status, body, none⟩
    Stdin := stdin }

/-- The staged diff of the end-to-end scenario. -/
def helloDiff : String := "diff --git a/x b/x\n+hello\n"

/-- A generation response body whose only part has the text `text` (already escaped for
JSON). -/
def bodyWithText (text : String) : String :=
  "\x7b\"candidates\":[\x7b\"content\":\x7b\"parts\":[\x7b\"text\":\"" ++ text ++ "\"\x7d]\x7d\x7d]\x7d"

/-- The response body of the end-to-end scenario. -/
def helloBody : String := bodyWithText "\\\"feat: add hello\\\""

/-- A first part's text wrapped in white space and several quote characters. -/
def noisyText : String := " \n'\"fix: a 'b'\"' "

/-- A response body with two candidates, the first holding `noisyText` and a second part. -/
def noisyBody : String :=
  "\x7b\"candidates\":[\x7b\"content\":\x7b\"parts\":[\x7b\"text\":\" \\n'\\\"fix: a 'b'\\\"' \"\x7d,\x7b\"text\":\"other\"\x7d]\x7d\x7d,\x7b\x7d]\x7d"

/-- A first part's text wrapped in two layers of double quotes. -/
def layeredText : String := "\"\"feat: x\"\""

/-- The response body whose only part holds `layeredText`. -/
def layeredBody : String := bodyWithText "\\\"\\\"feat: x\\\"\\\""

/-- A first part's text with white space inside its quotes. -/
def paddedText : String := "\" feat: x \""

/-- The response body whose only part holds `paddedText`. -/
def paddedBody : String := bodyWithText "\\\" feat: x \\\""

/-- A world like `scenario helloDiff 200 helloBody "y\n"` but without the credential. -/
def noCredential : World :=
  { scenario helloDiff 200 helloBody "y\n" with Env := fun _ => none }

/-- A response body whose first candidate has no parts and whose second candidate has
one. -/
def emptyFirstBody : String :=
  "\x7b\"candidates\":[\x7b\"content\":\x7b\"parts\":[]\x7d\x7d,\x7b\"content\":\x7b\"parts\":[\x7b\"text\":\"feat: y\"\x7d]\x7d\x7d]\x7d"

/-! ## Lemmas on trimming -/

theorem trimLeftFunc_eq_dropWhile (f : Char → Bool) (l : List Char) :
    trimLeftFunc f l = l.dropWhile f := by
  induction l with
  | nil => rfl
  | cons c cs ih =>
    by_cases h : f c = true
    · simp [trimLeftFunc, h, ih]
    · simp [trimLeftFunc, h]

theorem rdropWhile_cons (f : Char → Bool) (c : Char) (cs : List Char) :
    (c :: cs).rdropWhile f =
      if cs.rdropWhile f = [] then (if f c = true then [] else [c])
      else c :: cs.rdropWhile f := by
  induction cs using List.reverseRecOn with
  | nil =>
    by_cases h : f c = true
    · simp [List.rdropWhile, h]
    · simp [List.rdropWhile, h]
  | append_singleton l x ih =>
    rw [← List.cons_append, List.rdropWhile_concat, List.rdropWhile_concat]
    by_cases hx : f x = true
    · simp only [hx, if_true]; exact ih
    · simp [hx]

theorem trimRightFunc_eq_rdropWhile (f : Char → Bool) (l : List Char) :
    trimRightFunc f l = l.rdropWhile f := by
  induction l with
  | nil => rfl
  | cons c cs ih =>
    rw [rdropWhile_cons, ← ih, trimRightFunc]
    cases h : trimRightFunc f cs with
    | nil => simp
    | cons r rs => simp

theorem dropWhile_rdropWhile_comm (f : Char → Bool) (l : List Char) :
    (l.rdropWhile f).dropWhile f = (l.dropWhile f).rdropWhile f := by
  induction l with
  | nil => rfl
  | cons c cs ih =>
    by_cases hc : f c = true
    · rw [List.dropWhile_cons_of_pos hc, ← ih, rdropWhile_cons]
      by_cases hn : cs.rdropWhile f = []
      · simp [hn, hc]
      · simp [hn, hc]
    · rw [List.dropWhile_cons_of_neg hc, rdropWhile_cons]
      by_cases hn : cs.rdropWhile f = []
      · simp [hn, hc]
      · simp [hn, hc]

theorem TrimSpace_data (s : String) : (TrimSpace s).data = stripEnds IsSpace s.data := by
  simp [TrimSpace, stripEnds, trimLeftFunc_eq_dropWhile, trimRightFunc_eq_rdropWhile]

theorem contains_quotes (c : Char) : ("\"'" : String).data.contains c = isQuote c := by
  simp only [isQuote, List.contains, List.elem]
  cases c == '"' <;> cases c == '\'' <;> rfl

theorem Trim_quotes (s : String) : Trim s "\"'" = ⟨stripEnds isQuote s.data⟩ := by
  have hfun : (fun c => ("\"'" : String).data.contains c) = isQuote := funext contains_quotes
  unfold Trim
  split
  · rename_i h
    rcases h with h | h
    · subst h; rfl
    · exact absurd h (by decide)
  · rw [hfun, trimLeftFunc_eq_dropWhile, trimRightFunc_eq_rdropWhile, dropWhile_rdropWhile_comm]
    rfl

theorem Trim_TrimSpace (text : String) : Trim (TrimSpace text) "\"'" = sanitized text := by
  rw [Trim_quotes, TrimSpace_data]; rfl

/-! ## Lemmas on `generateCommitMessage` -/

theorem generate_of_parts {lib : Lib} {w : World} {diff apiKey : String} {resp : HttpResponse}
    {g : GeminiResponse} {c : Candidate} {cs : List Candidate} {p : Part} {ps : List Part}
    (h : Answered lib w diff apiKey resp) (hs : resp.StatusCode = 200)
    (hr : resp.ReadErr = none) (hu : lib.Unmarshal resp.Body = (g, none))
    (hc : g.Candidates = c :: cs) (hp : c.Content.Parts = p :: ps) :
    (generateCommitMessage lib w diff apiKey).1 = (Trim (TrimSpace p.Text) "\"'", none) := by
  obtain ⟨jsonData, hm, hpost⟩ := h
  simp [generateCommitMessage, hm, hpost, hs, hr, hu, hc, hp]

theorem generate_of_no_parts {lib : Lib} {w : World} {diff apiKey : String}
    {resp : HttpResponse} {g : GeminiResponse}
    (h : Answered lib w diff apiKey resp) (hs : resp.StatusCode = 200)
    (hr : resp.ReadErr = none) (hu : lib.Unmarshal resp.Body = (g, none))
    (hz : g.Candidates = [] ∨ ∃ c cs, g.Candidates = c :: cs ∧ c.Content.Parts = []) :
    (generateCommitMessage lib w diff apiKey).1 = ("", some "no response from Gemini") := by
  obtain ⟨jsonData, hm, hpost⟩ := h
  rcases hz with hz | ⟨c, cs, hc, hp⟩
  · simp [generateCommitMessage, hm, hpost, hs, hr, hu, hz]
  · simp [generateCommitMessage, hm, hpost, hs, hr, hu, hc, hp]

theorem stripEnds_eq_nil_iff (p : Char → Bool) (l : List Char) :
    stripEnds p l = [] ↔ ∀ c ∈ l, p c = true := by
  unfold stripEnds
  rw [List.rdropWhile_eq_nil_iff]
  constructor
  · intro h
    rw [← List.dropWhile_eq_nil_iff]
    cases hd : l.dropWhile p with
    | nil => rfl
    | cons x xs =>
      have hx : p x = true := h x (by rw [hd]; exact List.mem_cons_self x xs)
      have hnot := List.head?_dropWhile_not p l
      rw [hd] at hnot
      simp only [List.head?_cons] at hnot
      rw [hx] at hnot
      exact absurd hnot (by decide)
  · intro h c hc
    exact h c ((List.dropWhile_suffix p).subset hc)

theorem TrimSpace_eq_empty_iff (s : String) :
    TrimSpace s = "" ↔ ∀ c ∈ s.data, IsSpace c = true := by
  rw [← stripEnds_eq_nil_iff, ← TrimSpace_data]
  constructor
  · intro h; rw [h]
  · intro h; exact String.ext h

theorem answered_scenario (diffOut : String) (status : Nat) (body stdin diff apiKey : String) :
    Answered refLib (scenario diffOut status body stdin) diff apiKey ⟨status, body, none⟩ :=
  ⟨(refMarshal (reqBody diff)).1, rfl, rfl⟩

theorem isInfix_of_append {l a b c : List Char} (h : l = a ++ b ++ c) : b <:+: l :=
  ⟨a, c, h.symm⟩

/-! ## Lemmas on the ends of a trimmed string -/

theorem stripEnds_split (p : Char → Bool) (l : List Char) :
    ∃ pre post, (∀ c ∈ pre, p c = true) ∧ (∀ c ∈ post, p c = true) ∧
      l = pre ++ stripEnds p l ++ post := by
  refine ⟨l.takeWhile p, ((l.dropWhile p).reverse.takeWhile p).reverse,
    fun c hc => List.mem_takeWhile_imp hc,
    fun c hc => List.mem_takeWhile_imp (List.mem_reverse.mp hc), ?_⟩
  have h1 : (l.dropWhile p).rdropWhile p ++ ((l.dropWhile p).reverse.takeWhile p).reverse =
      l.dropWhile p := by
    rw [List.rdropWhile, ← List.reverse_append, List.takeWhile_append_dropWhile,
      List.reverse_reverse]
  rw [stripEnds, List.append_assoc, h1, List.takeWhile_append_dropWhile]

theorem stripEnds_head (p : Char → Bool) (l : List Char) (c : Char)
    (h : (stripEnds p l).head? = some c) : p c = false := by
  rw [stripEnds, ← dropWhile_rdropWhile_comm] at h
  have hnot := List.head?_dropWhile_not p (l.rdropWhile p)
  rw [h] at hnot
  exact hnot

theorem stripEnds_last (p : Char → Bool) (l : List Char) (c : Char)
    (h : (stripEnds p l).getLast? = some c) : p c = false := by
  rw [stripEnds] at h
  have hne : (l.dropWhile p).rdropWhile p ≠ [] := by
    intro hnil; rw [hnil] at h; exact absurd h (by simp)
  have hnot := List.rdropWhile_last_not p (l.dropWhile p) hne
  rw [List.getLast?_eq_getLast _ hne] at h
  rw [Option.some.inj h] at hnot
  simpa using hnot

theorem stripEnds_head_keep (p : Char → Bool) (l : List Char) (c : Char)
    (hl : l.head? = some c) (hc : p c = false) : (stripEnds p l).head? = some c := by
  cases l with
  | nil => exact absurd hl (by simp)
  | cons a as =>
    have ha : a = c := by simpa using hl
    subst ha
    have hd : (a :: as).dropWhile p = a :: as := List.dropWhile_cons_of_neg (by simp [hc])
    rw [stripEnds, hd, rdropWhile_cons]
    by_cases hn : as.rdropWhile p = []
    · simp [hn, hc]
    · simp [hn]

theorem stripEnds_last_keep (p : Char → Bool) (l : List Char) (c : Char)
    (hl : l.getLast? = some c) (hc : p c = false) : (stripEnds p l).getLast? = some c := by
  obtain ⟨ys, rfl⟩ := List.getLast?_eq_some_iff.mp hl
  have hr : (ys ++ [c]).rdropWhile p = ys ++ [c] := by
    rw [List.rdropWhile_concat]; simp [hc]
  rw [stripEnds, ← dropWhile_rdropWhile_comm, hr]
  have hsuf : (ys ++ [c]).dropWhile p <:+ ys ++ [c] := List.dropWhile_suffix p
  have hne : (ys ++ [c]).dropWhile p ≠ [] := by
    intro hnil
    have := List.dropWhile_eq_nil_iff.mp hnil c (by simp)
    rw [hc] at this
    exact absurd this (by decide)
  rw [List.getLast?_eq_getLast _ hne, hsuf.getLast hne]
  simp

theorem not_begins_sanitized (text : String) : ¬ beginsWith isQuote (sanitized text) := by
  rintro ⟨c, hc, hq⟩
  rw [stripEnds_head isQuote _ c hc] at hq
  exact absurd hq (by decide)

theorem not_ends_sanitized (text : String) : ¬ endsWith isQuote (sanitized text) := by
  rintro ⟨c, hc, hq⟩
  rw [stripEnds_last isQuote _ c hc] at hq
  exact absurd hq (by decide)

theorem sanitized_begins_space (text : String) (h : ¬ beginsWith isQuote (TrimSpace text)) :
    ¬ beginsWith IsSpace (sanitized text) := by
  rintro ⟨c, hc, hs⟩
  have hdata : (sanitized text).data = stripEnds isQuote (TrimSpace text).data := by
    rw [TrimSpace_data]; rfl
  rw [hdata] at hc
  cases hh : (TrimSpace text).data.head? with
  | none =>
    have hnil : (TrimSpace text).data = [] := by
      cases hd : (TrimSpace text).data with
      | nil => rfl
      | cons a as => rw [hd] at hh; exact absurd hh (by simp)
    rw [hnil] at hc
    exact absurd hc (by simp [stripEnds])
  | some a =>
    have hq : isQuote a = false := by
      cases hqa : isQuote a with
      | false => rfl
      | true => exact absurd ⟨a, hh, hqa⟩ h
    have hkeep := stripEnds_head_keep isQuote _ a hh hq
    rw [hkeep] at hc
    have hac : a = c := Option.some.inj hc
    subst hac
    rw [TrimSpace_data] at hh
    rw [stripEnds_head IsSpace _ a hh] at hs
    exact absurd hs (by decide)

theorem sanitized_ends_space (text : String) (h : ¬ endsWith isQuote (TrimSpace text)) :
    ¬ endsWith IsSpace (sanitized text) := by
  rintro ⟨c, hc, hs⟩
  have hdata : (sanitized text).data = stripEnds isQuote (TrimSpace text).data := by
    rw [TrimSpace_data]; rfl
  rw [hdata] at hc
  cases hh : (TrimSpace text).data.getLast? with
  | none =>
    have hnil : (TrimSpace text).data = [] := List.getLast?_eq_none_iff.mp hh
    rw [hnil] at hc
    exact absurd hc (by simp [stripEnds])
  | some a =>
    have hq : isQuote a = false := by
      cases hqa : isQuote a with
      | false => rfl
      | true => exact absurd ⟨a, hh, hqa⟩ h
    have hkeep := stripEnds_last_keep isQuote _ a hh hq
    rw [hkeep] at hc
    have hac : a = c := Option.some.inj hc
    subst hac
    rw [TrimSpace_data] at hh
    rw [stripEnds_last IsSpace _ a hh] at hs
    exact absurd hs (by decide)

/-- A call of `generateCommitMessage` that returns no error got a status 200 answer whose
body decoded to a response with a first part, and returns that part's sanitised text. -/
theorem generate_success_inv {lib : Lib} {w : World} {diff apiKey msg : String}
    (h : (generateCommitMessage lib w diff apiKey).1 = (msg, none)) :
    ∃ resp g c cs p ps, Answered lib w diff apiKey resp ∧ resp.StatusCode = 200 ∧
      resp.ReadErr = none ∧ lib.Unmarshal resp.Body = (g, none) ∧ g.Candidates = c :: cs ∧
      c.Content.Parts = p :: ps ∧ msg = sanitized p.Text := by
  unfold generateCommitMessage at h
  split at h
  · simp at h
  · rename_i jsonData hm
    dsimp only at h
    split at h
    · simp at h
    · rename_i resp hpost
      split at h
      · simp at h
      · rename_i hs
        split at h
        · simp at h
        · rename_i hr
          split at h
          · simp at h
          · rename_i g hu
            split at h
            · simp at h
            · rename_i c cs hc
              split at h
              · simp at h
              · rename_i p ps hp
                refine ⟨resp, g, c, cs, p, ps, ⟨jsonData, hm, hpost⟩, by simpa using hs, hr, hu,
                  hc, hp, ?_⟩
                rw [← Trim_TrimSpace]
                exact (congrArg Prod.fst h).symm

/-! ## Lemmas on `main` -/

theorem getStagedChanges_events (w : World) :
    (getStagedChanges w).2 = [Event.exec ["git", "diff", "--cached"]] := by
  unfold getStagedChanges
  dsimp only
  split
  · rfl
  · split <;> rfl

theorem generate_events_not_commit (lib : Lib) (w : World) (diff apiKey : String) :
    (generateCommitMessage lib w diff apiKey).2.filter isCommit = [] := by
  unfold generateCommitMessage
  split
  · rfl
  · dsimp only
    split
    · rfl
    · split
      · rfl
      · split
        · rfl
        · split
          · rfl
          · split
            · rfl
            · split <;> rfl

theorem promptTrace_not_commit (lib : Lib) (w : World) (key diff message : String) :
    (promptTrace lib w key diff message).filter isCommit = [] := by
  simp [promptTrace, List.filter_append, generate_events_not_commit, List.filter, isCommit]

/-- What `main` does once the prompt is reached. -/
theorem main_at_prompt {lib : Lib} {w : World} {key diff message : String}
    (hk : w.Env "GEMINI_API_KEY" = some key) (hne : key ≠ "")
    (hrepo : (w.Exec ["git", "rev-parse", "--git-dir"]).Err = none)
    (hst : (getStagedChanges w).1 = (diff, none))
    (hgen : (generateCommitMessage lib w diff key).1 = (message, none)) :
    main lib w =
      if affirmative (TrimSpace (ToLower lib.CaseTable (promptLine w))) then
        match (commitChanges w message).1 with
        | some err =>
          (Exit.fatal ("❌ " ++ err),
            promptTrace lib w key diff message ++ (commitChanges w message).2)
        | none =>
          (Exit.ok, promptTrace lib w key diff message ++ (commitChanges w message).2 ++
            [Event.stdout "🎉 Successfully committed!\n"])
      else
        (Exit.ok, promptTrace lib w key diff message ++ [Event.stdout "❌ Commit cancelled\n"]) := by
  simp only [main, Getenv, hk, Option.getD_some, hne, if_false, isGitRepo, hrepo,
    Option.isNone_none, hst, hgen, getStagedChanges_events, promptTrace, promptLine, affirmative,
    List.append_assoc, List.cons_append, List.nil_append, Bool.true_eq_false]

theorem commitChanges_commits (w : World) (message : String) :
    (commitChanges w message).2.filter isCommit =
      [Event.exec ["git", "commit", "-m", message]] := by
  unfold commitChanges
  dsimp only
  split <;> simp [List.filter, isCommit]

/-- The commit subprocesses of a run that reaches the prompt: one, with the generated
message, when the lower-cased and trimmed line is `y` or `yes`, and none otherwise. -/
theorem main_commits {lib : Lib} {w : World} {key diff message : String}
    (hk : w.Env "GEMINI_API_KEY" = some key) (hne : key ≠ "")
    (hrepo : (w.Exec ["git", "rev-parse", "--git-dir"]).Err = none)
    (hst : (getStagedChanges w).1 = (diff, none))
    (hgen : (generateCommitMessage lib w diff key).1 = (message, none)) :
    (main lib w).2.filter isCommit =
      if affirmative (TrimSpace (ToLower lib.CaseTable (promptLine w))) then
        [Event.exec ["git", "commit", "-m", message]]
      else [] := by
  rw [main_at_prompt hk hne hrepo hst hgen]
  split
  · split
    · rw [List.filter_append, promptTrace_not_commit, commitChanges_commits]; rfl
    · rw [List.filter_append, List.filter_append, promptTrace_not_commit,
        commitChanges_commits]; rfl
  · rw [List.filter_append, promptTrace_not_commit]; rfl

theorem main_cancelled {lib : Lib} {w : World} {key diff message : String}
    (hk : w.Env "GEMINI_API_KEY" = some key) (hne : key ≠ "")
    (hrepo : (w.Exec ["git", "rev-parse", "--git-dir"]).Err = none)
    (hst : (getStagedChanges w).1 = (diff, none))
    (hgen : (generateCommitMessage lib w diff key).1 = (message, none))
    (hno : ¬ affirmative (TrimSpace (ToLower lib.CaseTable (promptLine w)))) :
    (main lib w).1 = Exit.ok := by
  rw [main_at_prompt hk hne hrepo hst hgen, if_neg hno]

theorem main_shows_message {lib : Lib} {w : World} {key diff message : String}
    (hk : w.Env "GEMINI_API_KEY" = some key) (hne : key ≠ "")
    (hrepo : (w.Exec ["git", "rev-parse", "--git-dir"]).Err = none)
    (hst : (getStagedChanges w).1 = (diff, none))
    (hgen : (generateCommitMessage lib w diff key).1 = (message, none)) :
    Event.stdout ("\n💡 Generated commit message:\n" ++ message ++ "\n\n") ∈ (main lib w).2 := by
  have hmem : Event.stdout ("\n💡 Generated commit message:\n" ++ message ++ "\n\n") ∈
      promptTrace lib w key diff message := by
    simp [promptTrace]
  rw [main_at_prompt hk hne hrepo hst hgen]
  split
  · split
    · exact List.mem_append_left _ hmem
    · exact List.mem_append_left _ (List.mem_append_left _ hmem)
  · exact List.mem_append_left _ hmem

/-! ## Lemmas on the normalisation of the answer -/

theorem isSpace_unicodeToLower (tbl : Char → Char)
    (htbl : ∀ c : Char, 0x7F < c.toNat → IsSpace (tbl c) = IsSpace c) (c : Char) :
    IsSpace (unicodeToLower tbl c) = IsSpace c := by
  unfold unicodeToLower
  split
  · split
    · rename_i h
      obtain ⟨h1, h2⟩ := h
      have hc : IsSpace c = false := by
        simp only [IsSpace]
        generalize c.toNat = n at h1 h2
        interval_cases n <;> rfl
      rw [hc]
      generalize c.toNat = n at h1 h2
      interval_cases n <;> rfl
    · rfl
  · rename_i h
    exact htbl c (by omega)

theorem stripEnds_map (p : Char → Bool) (f : Char → Char) (hf : ∀ c, p (f c) = p c)
    (l : List Char) : stripEnds p (l.map f) = (stripEnds p l).map f := by
  have hcomp : p ∘ f = p := funext hf
  simp only [stripEnds, List.rdropWhile, List.dropWhile_map, hcomp, ← List.map_reverse]

theorem TrimSpace_ToLower (tbl : Char → Char)
    (htbl : ∀ c : Char, 0x7F < c.toNat → IsSpace (tbl c) = IsSpace c) (s : String) :
    TrimSpace (ToLower tbl s) = ToLower tbl (TrimSpace s) := by
  apply String.ext
  rw [TrimSpace_data]
  simp only [ToLower]
  rw [stripEnds_map IsSpace _ (isSpace_unicodeToLower tbl htbl), TrimSpace_data]

theorem refCaseTable_space (c : Char) (_h : 0x7F < c.toNat) :
    IsSpace (refCaseTable c) = IsSpace c := by
  unfold refCaseTable
  split
  · rename_i h
    have hc : IsSpace c = false := by
      simp only [IsSpace]
      generalize c.toNat = n at h
      rcases h with ⟨h1, h2⟩ | ⟨h1, h2⟩ <;> interval_cases n <;> rfl
    rw [hc]
    generalize c.toNat = n at h
    rcases h with ⟨h1, h2⟩ | ⟨h1, h2⟩ <;> interval_cases n <;> rfl
  · split
    · rename_i h
      have hc : IsSpace c = false := by simp only [IsSpace, h]; rfl
      rw [hc]; rfl
    · rfl

theorem normalized_ascii (tbl : Char → Char) :
    normalized tbl "Y" = "y" ∧ normalized tbl " yes " = "yes" ∧ normalized tbl "YES" = "yes" ∧
      normalized tbl "" = "" ∧ normalized tbl "n" = "n" ∧ normalized tbl "maybe" = "maybe" :=
  ⟨rfl, rfl, rfl, rfl, rfl, rfl⟩

theorem promptRules_lines :
    promptRules = ⟨"\n\nRules:\n".data ++ "- Use format: type: description\n".data ++
      "- Types: feat, fix, docs, style, refactor, test, chore\n".data ++
      "- Keep under 50 characters\n".data ++
      "- Be specific\n\nJust return the commit message, nothing else:".data⟩ := rfl

theorem apiURL_key :
    "https://generativelanguage.googleapis.com/v1beta/models/gemini-1.5-flash-latest:generateContent".data ++
      "?key=".data = apiURL.data := rfl

/-! ## The claims -/

/-- C1: when the API answers with status 200 and the body decodes to a response whose first
candidate has at least one part, `generateCommitMessage` returns without error exactly the
first candidate's first part's text with all leading and trailing white space removed and
then every leading and trailing quote character removed; the other candidates `cs` and the
other parts `ps` do not occur in the result. -/
theorem generateCommitMessage_first_part (lib : Lib) (w : World) (diff apiKey : String)
    (resp : HttpResponse) (g : GeminiResponse) (c : Candidate) (cs : List Candidate)
    (p : Part) (ps : List Part)
    (h : Answered lib w diff apiKey resp) (hs : resp.StatusCode = 200)
    (hr : resp.ReadErr = none) (hu : lib.Unmarshal resp.Body = (g, none))
    (hc : g.Candidates = c :: cs) (hp : c.Content.Parts = p :: ps) :
    (generateCommitMessage lib w diff apiKey).1 = (sanitized p.Text, none) := by
  rw [generate_of_parts h hs hr hu hc hp, Trim_TrimSpace]

/-- Witness of C1: a response with two candidates and two parts, the first text wrapped in
white space and mixed quotes. -/
theorem generateCommitMessage_first_part_witness :
    (generateCommitMessage refLib (scenario helloDiff 200 noisyBody "") helloDiff "secret").1 =
      ("fix: a 'b", none) :=
  (generateCommitMessage_first_part refLib (scenario helloDiff 200 noisyBody "") helloDiff
    "secret" ⟨200, noisyBody, none⟩ ⟨[⟨⟨[⟨noisyText⟩, ⟨"other"⟩]⟩⟩, ⟨⟨[]⟩⟩]⟩
    ⟨⟨[⟨noisyText⟩, ⟨"other"⟩]⟩⟩ [⟨⟨[]⟩⟩] ⟨noisyText⟩ [⟨"other"⟩]
    (answered_scenario _ _ _ _ _ _) rfl rfl (by decide) rfl rfl).trans (by decide)

/-- C4: when the API answers with status 200 and the body decodes without error, then with
zero candidates, or zero parts in the first candidate, `generateCommitMessage` returns the
empty message and the error `no response from Gemini`; and with at least one part in the
first candidate it returns no error, whatever the other candidates `cs` hold. -/
theorem generateCommitMessage_no_response (lib : Lib) (w : World) (diff apiKey : String)
    (resp : HttpResponse) (g : GeminiResponse)
    (h : Answered lib w diff apiKey resp) (hs : resp.StatusCode = 200)
    (hr : resp.ReadErr = none) (hu : lib.Unmarshal resp.Body = (g, none)) :
    ((g.Candidates = [] ∨ ∃ c cs, g.Candidates = c :: cs ∧ c.Content.Parts = []) →
      (generateCommitMessage lib w diff apiKey).1 = ("", some "no response from Gemini")) ∧
    (∀ c cs p ps, g.Candidates = c :: cs → c.Content.Parts = p :: ps →
      (generateCommitMessage lib w diff apiKey).1.2 = none) := by
  refine ⟨fun hz => generate_of_no_parts h hs hr hu hz, ?_⟩
  intro c cs p ps hc hp
  rw [generate_of_parts h hs hr hu hc hp]

/-- Witness of C4: the bodies `{}`, `{"candidates":null}` and `{"candidates":[]}` decode to
zero candidates, and `emptyFirstBody` to an empty first candidate followed by a full one;
`noisyBody` has a part in its first candidate. -/
theorem generateCommitMessage_no_response_witness :
    (generateCommitMessage refLib (scenario helloDiff 200 "\x7b\x7d" "") helloDiff
        "secret").1 = ("", some "no response from Gemini") ∧
      (generateCommitMessage refLib (scenario helloDiff 200 "\x7b\"candidates\":null\x7d" "")
        helloDiff "secret").1 = ("", some "no response from Gemini") ∧
      (generateCommitMessage refLib (scenario helloDiff 200 "\x7b\"candidates\":[]\x7d" "")
        helloDiff "secret").1 = ("", some "no response from Gemini") ∧
      (generateCommitMessage refLib (scenario helloDiff 200 emptyFirstBody "") helloDiff
        "secret").1 = ("", some "no response from Gemini") ∧
      (generateCommitMessage refLib (scenario helloDiff 200 noisyBody "") helloDiff
        "secret").1.2 = none :=
  ⟨(generateCommitMessage_no_response refLib (scenario helloDiff 200 "\x7b\x7d" "") helloDiff
      "secret" ⟨200, "\x7b\x7d", none⟩ ⟨[]⟩
      (answered_scenario _ _ _ _ _ _) rfl rfl (by decide)).1 (Or.inl rfl),
    (generateCommitMessage_no_response refLib
      (scenario helloDiff 200 "\x7b\"candidates\":null\x7d" "") helloDiff "secret"
      ⟨200, "\x7b\"candidates\":null\x7d", none⟩ ⟨[]⟩
      (answered_scenario _ _ _ _ _ _) rfl rfl (by decide)).1 (Or.inl rfl),
    (generateCommitMessage_no_response refLib
      (scenario helloDiff 200 "\x7b\"candidates\":[]\x7d" "") helloDiff "secret"
      ⟨200, "\x7b\"candidates\":[]\x7d", none⟩ ⟨[]⟩
      (answered_scenario _ _ _ _ _ _) rfl rfl (by decide)).1 (Or.inl rfl),
    (generateCommitMessage_no_response refLib (scenario helloDiff 200 emptyFirstBody "")
      helloDiff "secret" ⟨200, emptyFirstBody, none⟩ ⟨[⟨⟨[]⟩⟩, ⟨⟨[⟨"feat: y"⟩]⟩⟩]⟩
      (answered_scenario _ _ _ _ _ _) rfl rfl (by decide)).1
      (Or.inr ⟨⟨⟨[]⟩⟩, [⟨⟨[⟨"feat: y"⟩]⟩⟩], rfl, rfl⟩),
    (generateCommitMessage_no_response refLib (scenario helloDiff 200 noisyBody "") helloDiff
      "secret" ⟨200, noisyBody, none⟩ ⟨[⟨⟨[⟨noisyText⟩, ⟨"other"⟩]⟩⟩, ⟨⟨[]⟩⟩]⟩
      (answered_scenario _ _ _ _ _ _) rfl rfl (by decide)).2 _ _ _ _ rfl rfl⟩

/-- C5: when the API answers with a status code other than 200, `generateCommitMessage`
returns the empty message and an error whose text is `Gemini API error (status `, the
decimal status code, `): ` and the response body; the text contains the code and the body,
and the result is the same whatever decoder the library has (the body is not parsed). -/
theorem generateCommitMessage_status_error (lib : Lib) (w : World) (diff apiKey : String)
    (resp : HttpResponse)
    (h : Answered lib w diff apiKey resp) (hs : resp.StatusCode ≠ 200) :
    (∃ err : String, (generateCommitMessage lib w diff apiKey).1 = ("", some err) ∧
      err = "Gemini API error (status " ++ Itoa resp.StatusCode ++ "): " ++ resp.Body ∧
      (Itoa resp.StatusCode).data <:+: err.data ∧ resp.Body.data <:+: err.data) ∧
    (∀ u : String → GeminiResponse × Option String,
      generateCommitMessage { lib with Unmarshal := u } w diff apiKey =
        generateCommitMessage lib w diff apiKey) := by
  obtain ⟨jsonData, hm, hpost⟩ := h
  refine ⟨⟨_, ?_, rfl, ?_, ?_⟩, ?_⟩
  · simp [generateCommitMessage, hm, hpost, hs]
  · exact ⟨"Gemini API error (status ".data, "): ".data ++ resp.Body.data, by simp⟩
  · exact ⟨"Gemini API error (status ".data ++ (Itoa resp.StatusCode).data ++ "): ".data, [],
      by simp⟩
  · intro u
    simp [generateCommitMessage, hm, hpost, hs]

/-- Witness of C5: status 503 with a body that is a well-formed generation response. -/
theorem generateCommitMessage_status_error_witness :
    (generateCommitMessage refLib (scenario helloDiff 503 helloBody "") helloDiff "secret").1 =
      ("", some ("Gemini API error (status 503): " ++ helloBody)) := by
  obtain ⟨err, h1, h2, -, -⟩ := (generateCommitMessage_status_error refLib
    (scenario helloDiff 503 helloBody "") helloDiff "secret" ⟨503, helloBody, none⟩
    (answered_scenario _ _ _ _ _ _) (by decide)).1
  rw [h1, h2]; rfl

/-- C6: when `git diff --cached` exits successfully, `getStagedChanges` returns the error
`no staged changes found - run 'git add .' first` exactly when every rune of the captured
output is white space (the empty output included), and otherwise returns the captured
output itself with no error. -/
theorem getStagedChanges_blank (w : World)
    (h : (w.Exec ["git", "diff", "--cached"]).Err = none) :
    ((getStagedChanges w).1 = ("", some "no staged changes found - run 'git add .' first") ↔
      ∀ c ∈ (w.Exec ["git", "diff", "--cached"]).Stdout.data, IsSpace c = true) ∧
    ((¬ ∀ c ∈ (w.Exec ["git", "diff", "--cached"]).Stdout.data, IsSpace c = true) →
      (getStagedChanges w).1 = ((w.Exec ["git", "diff", "--cached"]).Stdout, none)) := by
  have hblank := TrimSpace_eq_empty_iff (w.Exec ["git", "diff", "--cached"]).Stdout
  by_cases hb : TrimSpace (w.Exec ["git", "diff", "--cached"]).Stdout = ""
  · have hall := hblank.mp hb
    refine ⟨⟨fun _ => hall, fun _ => ?_⟩, fun hn => absurd hall hn⟩
    simp [getStagedChanges, h, hb]
  · have hall := fun x => hb (hblank.mpr x)
    have hres : (getStagedChanges w).1 = ((w.Exec ["git", "diff", "--cached"]).Stdout, none) := by
      simp [getStagedChanges, h, hb]
    refine ⟨⟨fun he => ?_, fun x => absurd x hall⟩, fun _ => hres⟩
    rw [hres] at he
    exact absurd (congrArg Prod.snd he) (by simp)

/-- Witness of C6: an output of blanks and newlines is rejected, and an output with
surrounding blank lines is returned untrimmed. -/
theorem getStagedChanges_blank_witness :
    (getStagedChanges (scenario " \n\t\n" 200 "" "")).1 =
        ("", some "no staged changes found - run 'git add .' first") ∧
      (getStagedChanges (scenario "\n+x \n\n" 200 "" "")).1 = ("\n+x \n\n", none) :=
  ⟨(getStagedChanges_blank (scenario " \n\t\n" 200 "" "") rfl).1.mpr (by decide),
    (getStagedChanges_blank (scenario "\n+x \n\n" 200 "" "") rfl).2 (by decide)⟩

/-- C2, refuted as stated: a first part `""feat: x""` (two layers of double quotes) comes
back as `feat: x`, while removing a single layer would give `"feat: x"`. -/
theorem single_layer_counterexample :
    refUnmarshal layeredBody = (⟨[⟨⟨[⟨layeredText⟩]⟩⟩]⟩, none) ∧
      (generateCommitMessage refLib (scenario helloDiff 200 layeredBody "") helloDiff
        "secret").1 = ("feat: x", none) ∧
      sanitizedOneLayer layeredText = "\"feat: x\"" ∧
      (generateCommitMessage refLib (scenario helloDiff 200 layeredBody "") helloDiff
        "secret").1 ≠ (sanitizedOneLayer layeredText, none) := by
  decide

/-- C2, amended: when the API answers with status 200 and the body decodes to a response
whose first candidate has at least one part, the returned message is the first part's text
with the surrounding white space removed and then all leading and all trailing quote
characters removed, however many there are: what is cut off the trimmed text at either end
consists of quote characters only, and the message itself neither begins nor ends with
one. -/
theorem generateCommitMessage_all_layers (lib : Lib) (w : World) (diff apiKey : String)
    (resp : HttpResponse) (g : GeminiResponse) (c : Candidate) (cs : List Candidate)
    (p : Part) (ps : List Part)
    (h : Answered lib w diff apiKey resp) (hs : resp.StatusCode = 200)
    (hr : resp.ReadErr = none) (hu : lib.Unmarshal resp.Body = (g, none))
    (hc : g.Candidates = c :: cs) (hp : c.Content.Parts = p :: ps) :
    ∃ msg : String, (generateCommitMessage lib w diff apiKey).1 = (msg, none) ∧
      (∃ pre post : List Char, (∀ q ∈ pre, isQuote q = true) ∧ (∀ q ∈ post, isQuote q = true) ∧
        (TrimSpace p.Text).data = pre ++ msg.data ++ post) ∧
      ¬ beginsWith isQuote msg ∧ ¬ endsWith isQuote msg := by
  refine ⟨sanitized p.Text, ?_, ?_, not_begins_sanitized _, not_ends_sanitized _⟩
  · rw [generate_of_parts h hs hr hu hc hp, Trim_TrimSpace]
  · obtain ⟨pre, post, hpre, hpost, hsplit⟩ := stripEnds_split isQuote (TrimSpace p.Text).data
    refine ⟨pre, post, hpre, hpost, ?_⟩
    rw [TrimSpace_data] at hsplit ⊢
    exact hsplit

/-- Witness of the amended C2: both layers of `""feat: x""` are removed. -/
theorem generateCommitMessage_all_layers_witness :
    ∃ msg : String,
      (generateCommitMessage refLib (scenario helloDiff 200 layeredBody "") helloDiff
        "secret").1 = (msg, none) ∧
      (∃ pre post : List Char, (∀ q ∈ pre, isQuote q = true) ∧ (∀ q ∈ post, isQuote q = true) ∧
        (TrimSpace layeredText).data = pre ++ msg.data ++ post) ∧
      ¬ beginsWith isQuote msg ∧ ¬ endsWith isQuote msg :=
  generateCommitMessage_all_layers refLib (scenario helloDiff 200 layeredBody "") helloDiff
    "secret" ⟨200, layeredBody, none⟩ ⟨[⟨⟨[⟨layeredText⟩]⟩⟩]⟩ ⟨⟨[⟨layeredText⟩]⟩⟩ []
    ⟨layeredText⟩ [] (answered_scenario _ _ _ _ _ _) rfl rfl (by decide) rfl rfl

/-- C3, refuted as stated: a first part `" feat: x "` (white space inside the quotes) comes
back, without error, as ` feat: x `, which begins and ends with a blank. -/
theorem padded_counterexample :
    refUnmarshal paddedBody = (⟨[⟨⟨[⟨paddedText⟩]⟩⟩]⟩, none) ∧
      (generateCommitMessage refLib (scenario helloDiff 200 paddedBody "") helloDiff
        "secret").1 = (" feat: x ", none) ∧
      beginsWith IsSpace " feat: x " ∧ endsWith IsSpace " feat: x " :=
  ⟨by decide, by decide, ⟨' ', rfl, by decide⟩, ⟨' ', rfl, by decide⟩⟩

/-- C3, amended: for every call of `generateCommitMessage` that returns no error, the
message neither begins nor ends with a single or double quote character; it is the
sanitised text of the first candidate's first part, and it neither begins (ends) with white
space unless the white-space-trimmed text began (ended) with a quote character. -/
theorem generateCommitMessage_clean_ends (lib : Lib) (w : World) (diff apiKey msg : String)
    (h : (generateCommitMessage lib w diff apiKey).1 = (msg, none)) :
    ¬ beginsWith isQuote msg ∧ ¬ endsWith isQuote msg ∧
      ∃ resp g c cs p ps, Answered lib w diff apiKey resp ∧
        lib.Unmarshal resp.Body = (g, none) ∧ g.Candidates = c :: cs ∧
        c.Content.Parts = p :: ps ∧ msg = sanitized p.Text ∧
        (¬ beginsWith isQuote (TrimSpace p.Text) → ¬ beginsWith IsSpace msg) ∧
        (¬ endsWith isQuote (TrimSpace p.Text) → ¬ endsWith IsSpace msg) := by
  obtain ⟨resp, g, c, cs, p, ps, ha, -, -, hu, hc, hp, rfl⟩ := generate_success_inv h
  exact ⟨not_begins_sanitized _, not_ends_sanitized _, resp, g, c, cs, p, ps, ha, hu, hc, hp,
    rfl, sanitized_begins_space _, sanitized_ends_space _⟩

/-- Witness of the amended C3: the successful call on `noisyBody`. -/
theorem generateCommitMessage_clean_ends_witness :
    (generateCommitMessage refLib (scenario helloDiff 200 noisyBody "") helloDiff "secret").1 =
        ("fix: a 'b", none) ∧
      ¬ beginsWith isQuote "fix: a 'b" ∧ ¬ endsWith isQuote "fix: a 'b" :=
  have h := generateCommitMessage_clean_ends refLib (scenario helloDiff 200 noisyBody "")
    helloDiff "secret" "fix: a 'b" (by decide)
  ⟨by decide, h.1, h.2.1⟩

/-- C7: in every run that reaches the confirmation prompt, the `git commit` subprocess is
started (once, with the generated message) if and only if the line read from standard
input, with surrounding white space trimmed and lower-cased, is `y` or `yes`; otherwise no
commit subprocess is started and the run ends normally.  `Y`, ` yes ` and `YES` confirm;
the empty line, `n` and `maybe` do not.  The case table `unicode.ToLower` uses above ASCII
is assumed to map white space to white space and everything else to something else. -/
theorem confirmation_decides_commit (lib : Lib) (w : World) (message : String)
    (h : ReachesPrompt lib w message)
    (htbl : ∀ c : Char, 0x7F < c.toNat → IsSpace (lib.CaseTable c) = IsSpace c) :
    ((main lib w).2.filter isCommit =
      if affirmative (normalized lib.CaseTable (promptLine w)) then
        [Event.exec ["git", "commit", "-m", message]]
      else []) ∧
    ((∃ e ∈ (main lib w).2, isCommit e = true) ↔
      affirmative (normalized lib.CaseTable (promptLine w))) ∧
    (¬ affirmative (normalized lib.CaseTable (promptLine w)) → (main lib w).1 = Exit.ok) ∧
    (affirmative (normalized lib.CaseTable "Y") ∧ affirmative (normalized lib.CaseTable " yes ") ∧
      affirmative (normalized lib.CaseTable "YES") ∧ ¬ affirmative (normalized lib.CaseTable "") ∧
      ¬ affirmative (normalized lib.CaseTable "n") ∧
      ¬ affirmative (normalized lib.CaseTable "maybe")) := by
  obtain ⟨key, diff, hk, hne, hrepo, hst, hgen⟩ := h
  have hnorm : TrimSpace (ToLower lib.CaseTable (promptLine w)) =
      normalized lib.CaseTable (promptLine w) := TrimSpace_ToLower _ htbl _
  have hfilter := main_commits hk hne hrepo hst hgen
  rw [hnorm] at hfilter
  refine ⟨hfilter, ?_, ?_, ?_⟩
  · constructor
    · rintro ⟨e, he, hc⟩
      by_contra hno
      have hmem : e ∈ (main lib w).2.filter isCommit := List.mem_filter.mpr ⟨he, hc⟩
      rw [hfilter, if_neg hno] at hmem
      exact absurd hmem (List.not_mem_nil e)
    · intro hyes
      have hmem : Event.exec ["git", "commit", "-m", message] ∈ (main lib w).2.filter isCommit := by
        rw [hfilter, if_pos hyes]; exact List.mem_singleton_self _
      exact ⟨_, (List.mem_filter.mp hmem).1, (List.mem_filter.mp hmem).2⟩
  · intro hno
    rw [← hnorm] at hno
    exact main_cancelled hk hne hrepo hst hgen hno
  · obtain ⟨h1, h2, h3, h4, h5, h6⟩ := normalized_ascii lib.CaseTable
    rw [h1, h2, h3, h4, h5, h6]
    exact ⟨Or.inl rfl, Or.inr rfl, Or.inr rfl, by decide, by decide, by decide⟩

/-- Witness of C7: the answer ` YES ` commits with the generated message. -/
theorem confirmation_decides_commit_witness :
    (main refLib (scenario helloDiff 200 helloBody " YES \n")).2.filter isCommit =
      [Event.exec ["git", "commit", "-m", "feat: add hello"]] :=
  (confirmation_decides_commit refLib (scenario helloDiff 200 helloBody " YES \n")
    "feat: add hello" ⟨"secret", helloDiff, rfl, by decide, rfl, by decide, by decide⟩
    refCaseTable_space).1.trans (by decide)

/-- C8: with the credential set, the repository probe succeeding, `git diff --cached`
printing `diff --git a/x b/x\n+hello\n`, the API answering the request with status 200 and
the body `{"candidates":[{"content":{"parts":[{"text":"\"feat: add hello\""}]}}]}`, which
the decoder reads as one candidate with the one part `"feat: add hello"`, the generated
message is `feat: add hello`, it is displayed, and on the input `y` the only commit
subprocess of the run is `git commit -m` with exactly that message. -/
theorem end_to_end (lib : Lib) (w : World) (key : String) (resp : HttpResponse)
    (hk : w.Env "GEMINI_API_KEY" = some key) (hne : key ≠ "")
    (hrepo : (w.Exec ["git", "rev-parse", "--git-dir"]).Err = none)
    (hdiff : (w.Exec ["git", "diff", "--cached"]).Err = none)
    (hout : (w.Exec ["git", "diff", "--cached"]).Stdout = helloDiff)
    (hans : Answered lib w helloDiff key resp) (hs : resp.StatusCode = 200)
    (hr : resp.ReadErr = none) (hb : resp.Body = helloBody)
    (hu : lib.Unmarshal helloBody = (⟨[⟨⟨[⟨"\"feat: add hello\""⟩]⟩⟩]⟩, none))
    (hin : w.Stdin = "y\n" ∨ w.Stdin = "y") :
    (generateCommitMessage lib w helloDiff key).1 = ("feat: add hello", none) ∧
      Event.stdout "\n💡 Generated commit message:\nfeat: add hello\n\n" ∈ (main lib w).2 ∧
      (main lib w).2.filter isCommit = [Event.exec ["git", "commit", "-m", "feat: add hello"]] := by
  have hst : (getStagedChanges w).1 = (helloDiff, none) := by
    have hne2 : TrimSpace helloDiff ≠ "" := by decide
    simp [getStagedChanges, hdiff, hout, hne2]
  have hgen : (generateCommitMessage lib w helloDiff key).1 = ("feat: add hello", none) := by
    rw [← hb] at hu
    rw [generate_of_parts hans hs hr hu rfl rfl]
    decide
  have hyes : affirmative (TrimSpace (ToLower lib.CaseTable (promptLine w))) := by
    rcases hin with hin | hin
    · have hline : TrimSpace (ToLower lib.CaseTable (promptLine w)) = "y" := by
        rw [promptLine, hin]; rfl
      rw [hline]; exact Or.inl rfl
    · have hline : TrimSpace (ToLower lib.CaseTable (promptLine w)) = "y" := by
        rw [promptLine, hin]; rfl
      rw [hline]; exact Or.inl rfl
  refine ⟨hgen, main_shows_message hk hne hrepo hst hgen, ?_⟩
  rw [main_commits hk hne hrepo hst hgen, if_pos hyes]

/-- Witness of C8: the scenario with the reference JSON encoder and decoder. -/
theorem end_to_end_witness :
    (generateCommitMessage refLib (scenario helloDiff 200 helloBody "y\n") helloDiff
        "secret").1 = ("feat: add hello", none) ∧
      Event.stdout "\n💡 Generated commit message:\nfeat: add hello\n\n" ∈
        (main refLib (scenario helloDiff 200 helloBody "y\n")).2 ∧
      (main refLib (scenario helloDiff 200 helloBody "y\n")).2.filter isCommit =
        [Event.exec ["git", "commit", "-m", "feat: add hello"]] :=
  end_to_end refLib (scenario helloDiff 200 helloBody "y\n") "secret" ⟨200, helloBody, none⟩
    rfl (by decide) rfl rfl rfl (answered_scenario _ _ _ _ _ _) rfl rfl rfl (by decide)
    (Or.inl rfl)

/-- C9: when the credential variable is unset or empty, `main` ends with the fatal error
`GEMINI_API_KEY environment variable is required` having only printed its banner: no
subprocess is started, no HTTP request is sent and standard input is not read. -/
theorem main_without_credential (lib : Lib) (w : World)
    (h : w.Env "GEMINI_API_KEY" = none ∨ w.Env "GEMINI_API_KEY" = some "") :
    main lib w = (Exit.fatal "❌ GEMINI_API_KEY environment variable is required",
        [Event.stdout "🚀 Gemini Git Commit Generator\n"]) ∧
      ∀ e ∈ (main lib w).2, isExternal e = false := by
  have hmain : main lib w = (Exit.fatal "❌ GEMINI_API_KEY environment variable is required",
      [Event.stdout "🚀 Gemini Git Commit Generator\n"]) := by
    rcases h with h | h <;> simp [main, Getenv, h]
  rw [hmain]
  refine ⟨rfl, ?_⟩
  intro e he
  rw [List.mem_singleton.mp he]
  rfl

/-- Witness of C9: a world where everything else would succeed, without the credential. -/
theorem main_without_credential_witness :
    (main refLib noCredential).1 =
      Exit.fatal "❌ GEMINI_API_KEY environment variable is required" :=
  congrArg Prod.fst (main_without_credential refLib noCredential (Or.inl rfl)).1

/-- C10: for every diff and credential, the value `generateCommitMessage` serialises has
exactly one `contents` entry with exactly one part, whose text is the fixed introduction,
the diff unmodified and the fixed rules (which name the form `type: description`, the seven
types and the 50-character limit); the only effect of the call is one POST, to the fixed
URL ending in `?key=` followed by the credential, with content type JSON and the
serialisation of that value as body (no POST when serialising fails).  The URL does not
depend on the diff and the body does not depend on the credential.  Under the reference
encoder the body reads `{"contents":[{"parts":[{"text":` the prompt as a JSON string
`}]}]}`. -/
theorem generateCommitMessage_request (lib : Lib) (w : World) (diff apiKey : String) :
    reqBody diff = ⟨[⟨[⟨promptIntro ++ diff ++ promptRules⟩]⟩]⟩ ∧
      (generateCommitMessage lib w diff apiKey).2 =
        (match lib.Marshal (reqBody diff) with
          | (jsonData, none) => [Event.httpPost (apiURL ++ apiKey) "application/json" jsonData]
          | (_, some _) => []) ∧
      (refMarshal (reqBody diff)).1 =
        ⟨"\x7b\"contents\":[\x7b\"parts\":[\x7b\"text\":".data ++
          encodeString (promptIntro ++ diff ++ promptRules) ++ "\x7d]\x7d]\x7d".data⟩ ∧
      "?key=".data <:+ apiURL.data ∧
      "- Use format: type: description\n".data <:+: promptRules.data ∧
      "- Types: feat, fix, docs, style, refactor, test, chore\n".data <:+: promptRules.data ∧
      "- Keep under 50 characters\n".data <:+: promptRules.data := by
  refine ⟨rfl, ?_, ?_, ⟨_, apiURL_key⟩, ?_, ?_, ?_⟩
  rotate_left
  · simp [refMarshal, reqBody, prompt, encodeSlice]
  · exact ⟨"\n\nRules:\n".data, ("- Types: feat, fix, docs, style, refactor, test, chore\n" ++
      "- Keep under 50 characters\n" ++
      "- Be specific\n\nJust return the commit message, nothing else:").data,
      congrArg String.data promptRules_lines.symm⟩
  · exact ⟨("\n\nRules:\n" ++ "- Use format: type: description\n").data,
      ("- Keep under 50 characters\n" ++
      "- Be specific\n\nJust return the commit message, nothing else:").data,
      congrArg String.data promptRules_lines.symm⟩
  · exact ⟨("\n\nRules:\n" ++ "- Use format: type: description\n" ++
      "- Types: feat, fix, docs, style, refactor, test, chore\n").data,
      "- Be specific\n\nJust return the commit message, nothing else:".data,
      congrArg String.data promptRules_lines.symm⟩
  unfold generateCommitMessage
  split
  · rename_i err hm
    rw [hm]
  · rename_i jsonData hm
    rw [hm]
    dsimp only
    split
    · rfl
    · split
      · rfl
      · split
        · rfl
        · split
          · rfl
          · split
            · rfl
            · split <;> rfl

set_option maxRecDepth 20000

/-- Witness of C10: the one effect of the call in the end-to-end scenario. -/
theorem generateCommitMessage_request_witness :
    (generateCommitMessage refLib (scenario helloDiff 200 helloBody "y\n") helloDiff
        "secret").2 =
      [Event.httpPost
        "https://generativelanguage.googleapis.com/v1beta/models/gemini-1.5-flash-latest:generateContent?key=secret"
        "application/json"
        "\x7b\"contents\":[\x7b\"parts\":[\x7b\"text\":\"Generate a short git commit message for these changes:\\n\\ndiff --git a/x b/x\\n+hello\\n\\n\\nRules:\\n- Use format: type: description\\n- Types: feat, fix, docs, style, refactor, test, chore\\n- Keep under 50 characters\\n- Be specific\\n\\nJust return the commit message, nothing else:\"\x7d]\x7d]\x7d"] :=
  (generateCommitMessage_request refLib (scenario helloDiff 200 helloBody "y\n") helloDiff
    "secret").2.1.trans rfl

end GitCommitGen
